import Mathlib

/-!
Shallow embedding of the `codeflow` core (the trace recorder / call-graph
builder) and proofs about it.

Sources embedded:
* `src/codeflow/core/safe_repr.py`  — the bounded value renderer `SafeRepr`;
* `src/codeflow/core/models.py`     — `Event`, `CallNode`, `CallEdge`, `RunResult`;
* `src/codeflow/core/tracer.py`     — the stateful `TraceRecorder` and its
  `trace(frame, event, arg)` callback;
* `src/codeflow/core/runner.py`     — `Runner.run`, modelled as a function of
  the final recorder state and the outcome of executing the unit.

Modelling conventions:
* A Python runtime value is modelled by what `repr` does on it: `PyValue` holds
  `some s` when `repr` returns the string `s`, and `none` when `repr` raises.
* A trace-callback argument (`arg`) carries both its `repr` view (used by the
  `return` branch) and, when the object is an `(exc_type, exc_value, tb)`
  triple, the pair of the type name and the exception value (used by the
  unpacking in the `exception` branch); unpacking anything else raises, which
  the model reports through `Except`.  The exception value itself is modelled
  by what `str` does on it, because the exception branch formats it with an
  unguarded f-string: when `str(exc_value)` raises, so does the callback.
* Python code that can raise is modelled in the `Except String` monad; the
  `__post_init__` validation of the `Event` dataclass becomes the fallible
  smart constructor `Event.make`.
* The recorder's call stack is kept in Python order: pushes append at the end
  (`l ++ [x]`), the top of the stack is `List.getLast?`, popping is
  `List.dropLast`.
-/

/-- A Python runtime value, seen through `repr`: `reprStr? = some s` when
`repr(v)` returns `s`, `none` when `repr(v)` raises. -/
structure PyValue where
  reprStr? : Option String
deriving DecidableEq, Repr

/-- Python `SafeRepr` (safe_repr.py): configuration is the truncation length,
default 200. -/
structure SafeRepr where
  max_len : Nat := 200
deriving DecidableEq, Repr

/-- Python `SafeRepr.__call__`: `repr(obj)` guarded by `except: s = "<unrepr-able>"`,
then truncation `s[:max_len] + "…"` when `len(s) > max_len`. -/
def SafeRepr.call (r : SafeRepr) (v : PyValue) : String :=
  let s := match v.reprStr? with
    | some s => s
    | none => "<unrepr-able>"
  if s.length > r.max_len then (s.take r.max_len) ++ "…" else s

/-- Python `EventType` (models.py): the four kinds of execution events. The Python
enum is a `str` enum; `value` below is the underlying string. -/
inductive EventType where
  | call
  | line
  | ret
  | exception
deriving DecidableEq, Repr

/-- The underlying string of an `EventType` member. -/
def EventType.value : EventType → String
  | .call => "call"
  | .line => "line"
  | .ret => "return"
  | .exception => "exception"

/-- Python `EventType(s)`: look an event type up from its string value; in Python an
unknown string raises `ValueError`, modelled by `none`. -/
def EventType.ofValue (s : String) : Option EventType :=
  if s = "call" then some .call
  else if s = "line" then some .line
  else if s = "return" then some .ret
  else if s = "exception" then some .exception
  else none

/-- Python `Event` (models.py): one instantaneous occurrence, immutable. `locals`
keeps Python's dict insertion order as an association list. -/
structure Event where
  id : Nat
  type : EventType
  node_id : Nat
  func_name : String
  filename : String
  lineno : Nat
  locals : List (String × String)
  arg : Option String
deriving DecidableEq, Repr

/-- The `__post_init__` validation of `Event` as a predicate: id and node id
positive, names non-empty.  (`lineno < 0` is impossible for `Nat`.) -/
def Event.valid (e : Event) : Prop :=
  0 < e.id ∧ 0 < e.node_id ∧ e.func_name ≠ "" ∧ e.filename ≠ ""

instance (e : Event) : Decidable e.valid := by
  unfold Event.valid; infer_instance

/-- Constructing an `Event` in Python runs `__post_init__`, which raises
`ValueError` on invalid data; hence a fallible constructor. -/
def Event.make (id : Nat) (type : EventType) (node_id : Nat)
    (func_name filename : String) (lineno : Nat)
    (locals : List (String × String)) (arg : Option String) :
    Except String Event :=
  if id = 0 then .error "Event ID must be positive"
  else if node_id = 0 then .error "Node ID must be positive"
  else if func_name = "" then .error "Function name cannot be empty"
  else if filename = "" then .error "Filename cannot be empty"
  else .ok ⟨id, type, node_id, func_name, filename, lineno, locals, arg⟩

/-- Python `CallNode` (models.py): one function invocation; the three terminal
fields start out `None`. -/
structure CallNode where
  id : Nat
  func_name : String
  filename : String
  call_event_id : Nat
  args : List (String × String)
  return_event_id : Option Nat := none
  return_value : Option String := none
  exception : Option String := none
deriving DecidableEq, Repr

/-- Python `CallEdge` (models.py): parent→child relationship between call nodes. -/
structure CallEdge where
  parent_id : Nat
  child_id : Nat
deriving DecidableEq, Repr

/-- Python `RunResult` (models.py): terminal aggregate. `status` is the literal
string `"ok"` or `"runtime_error"`, as in the Python `Literal` type. -/
structure RunResult where
  status : String
  events : List Event
  nodes : List CallNode
  edges : List CallEdge
  error : Option String := none
deriving DecidableEq, Repr

/-- The slice of a Python frame the recorder reads: `f_code.co_filename`,
`f_code.co_name`, `f_lineno`, and `f_locals` (insertion-ordered). -/
structure Frame where
  co_filename : String
  co_name : String
  f_lineno : Nat
  f_locals : List (String × PyValue)
deriving DecidableEq, Repr

/-- An exception value as the exception branch sees it, through `str` (the
f-string formats `exc_val` with `str`): `str? = some s` when `str(exc_value)`
returns `s`, and `none` when the exception's own `__str__` raises. -/
structure ExcValue where
  str? : Option String
deriving DecidableEq, Repr

/-- The third argument of the trace callback. `value` is the object as
`repr` sees it (the `return` branch passes it to `SafeRepr`); `excInfo` is
`some (typeName, excValue)` when the object is an `(exc_type, exc_value, tb)`
triple, which the `exception` branch unpacks — unpacking any other object
raises `TypeError`.  `exc_type.__name__` is always a plain string; the
exception value's textual form can fail, see `ExcValue`. -/
structure TraceArg where
  value : PyValue
  excInfo : Option (String × ExcValue) := none
deriving DecidableEq, Repr

/-- The Python `None` passed as `arg` for `call` and `line` events. -/
def TraceArg.noneArg : TraceArg := ⟨⟨some "None"⟩, none⟩

/-- Python `TraceRecorder` (tracer.py): the mutable recorder state. `_event_id` and
`_node_id` are the two id counters; `call_stack` is in Python order (top at
the end of the list). -/
structure TraceRecorder where
  user_filename : String
  safe_repr : SafeRepr
  events : List Event
  nodes : List CallNode
  edges : List CallEdge
  event_id : Nat
  node_id : Nat
  call_stack : List Nat
deriving DecidableEq, Repr

/-- Python `TraceRecorder.__init__`. -/
def TraceRecorder.init (user_filename : String) (safe_repr : SafeRepr) :
    TraceRecorder :=
  ⟨user_filename, safe_repr, [], [], [], 0, 0, []⟩

/-- Python `TraceRecorder._in_user_code`. -/
def TraceRecorder.in_user_code (s : TraceRecorder) (frame : Frame) : Bool :=
  frame.co_filename = s.user_filename

/-- Python `TraceRecorder._snapshot_locals`: render each local through `SafeRepr`. -/
def TraceRecorder.snapshot_locals (s : TraceRecorder) (frame : Frame) :
    List (String × String) :=
  frame.f_locals.map (fun kv => (kv.1, s.safe_repr.call kv.2))

/-- Python `TraceRecorder._set_node_return`: linear scan, set the first node with
the given id and stop. -/
def set_node_return (nodes : List CallNode) (node_id event_id : Nat)
    (ret_repr : String) : List CallNode :=
  match nodes with
  | [] => []
  | n :: rest =>
    if n.id = node_id then
      { n with return_event_id := some event_id, return_value := some ret_repr } :: rest
    else
      n :: set_node_return rest node_id event_id ret_repr

/-- Python `TraceRecorder._set_node_exception`: linear scan, set the first node with
the given id and stop. -/
def set_node_exception (nodes : List CallNode) (node_id : Nat)
    (exc_repr : String) : List CallNode :=
  match nodes with
  | [] => []
  | n :: rest =>
    if n.id = node_id then
      { n with exception := some exc_repr } :: rest
    else
      n :: set_node_exception rest node_id exc_repr

/-- Python `TraceRecorder.trace(frame, event, arg)`: the single entry point invoked
for every runtime notification.  Returns the updated recorder state, or an
error when the Python code would raise.  (In Python the callback returns
`self.trace` to continue tracing; that return value carries no state and is
dropped here.) -/
def TraceRecorder.trace (s : TraceRecorder) (frame : Frame) (event : String)
    (arg : TraceArg) : Except String TraceRecorder :=
  if ¬ s.in_user_code frame then .ok s
  else
    let func_name := frame.co_name
    let filename := frame.co_filename
    let lineno := frame.f_lineno
    if event = "call" then
      let node_id := s.node_id + 1
      let edges' := match s.call_stack.getLast? with
        | some top => s.edges ++ [⟨top, node_id⟩]
        | none => s.edges
      let eid := s.event_id + 1
      let call_locals := s.snapshot_locals frame
      match Event.make eid .call node_id func_name filename lineno call_locals none with
      | .error msg => .error msg
      | .ok e =>
        .ok { s with
          node_id := node_id,
          event_id := eid,
          edges := edges',
          events := s.events ++ [e],
          nodes := s.nodes ++
            [⟨node_id, func_name, filename, eid, call_locals, none, none, none⟩],
          call_stack := s.call_stack ++ [node_id] }
    else
      match s.call_stack.getLast? with
      | none => .ok s
      | some node_id =>
        if event = "line" then
          let eid := s.event_id + 1
          match Event.make eid .line node_id func_name filename lineno
              (s.snapshot_locals frame) none with
          | .error msg => .error msg
          | .ok e =>
            .ok { s with event_id := eid, events := s.events ++ [e] }
        else if event = "return" then
          let eid := s.event_id + 1
          let ret_repr := s.safe_repr.call arg.value
          match Event.make eid .ret node_id func_name filename lineno
              (s.snapshot_locals frame) (some ret_repr) with
          | .error msg => .error msg
          | .ok e =>
            .ok { s with
              event_id := eid,
              events := s.events ++ [e],
              nodes := set_node_return s.nodes node_id eid ret_repr,
              call_stack := s.call_stack.dropLast }
        else if event = "exception" then
          match arg.excInfo with
          | none => .error "TypeError: cannot unpack exception info"
          | some (excType, excVal) =>
            match excVal.str? with
            | none => .error "Exception raised by str(exc_value)"
            | some excMsg =>
              let eid := s.event_id + 1
              let exc_repr := excType ++ ": " ++ excMsg
              match Event.make eid .exception node_id func_name filename lineno
                  (s.snapshot_locals frame) (some exc_repr) with
              | .error msg => .error msg
              | .ok e =>
                .ok { s with
                  event_id := eid,
                  events := s.events ++ [e],
                  nodes := set_node_exception s.nodes node_id exc_repr }
        else
          .ok s

/-- One runtime notification, as handed to the trace callback. -/
structure Notification where
  frame : Frame
  event : String
  arg : TraceArg
deriving DecidableEq, Repr

/-- Feed a list of notifications to the recorder in order.  If the callback
raises, CPython disables tracing, so processing stops at the state reached so
far. -/
def processAll (s : TraceRecorder) : List Notification → TraceRecorder
  | [] => s
  | n :: rest =>
    match s.trace n.frame n.event n.arg with
    | .ok s' => processAll s' rest
    | .error _ => s

/-- The recorder states reachable from a fresh recorder by (non-raising)
trace notifications. -/
inductive Reaches (fn : String) (r : SafeRepr) : TraceRecorder → Prop where
  | init : Reaches fn r (TraceRecorder.init fn r)
  | step {s s' : TraceRecorder} {f : Frame} {ev : String} {a : TraceArg} :
      Reaches fn r s → s.trace f ev a = .ok s' → Reaches fn r s'

/-- The outcome of `exec(compiled, env, env)` inside `Runner.run`: either the
unit completed normally, or an exception escaped; the failure carries the
exception type name, its message, and the traceback frame lines that
`traceback.format_exc(limit=20)` would render. -/
inductive ExecOutcome where
  | normal
  | raised (excType excMsg : String) (chain : List String)
deriving DecidableEq, Repr

/-- Modelled from the spec: the formatted failure description produced by
Python's `traceback.format_exc(limit=20)` (standard library, not part of this
repository) — "a formatted description (exception type, message, and a
bounded-depth call chain)".  The header line, then at most `limit` frame
lines, then `"<TypeName>: <message>"`. -/
def format_exc (limit : Nat) (excType excMsg : String) (chain : List String) :
    String :=
  "Traceback (most recent call last):\n"
    ++ String.join (chain.take limit)
    ++ excType ++ ": " ++ excMsg ++ "\n"

/-- Python `Runner.run` (runner.py), as a function of the recorder state accumulated
by the run and the outcome of executing the unit.  The `try/except/finally`:
normal completion returns an `ok` result, an escaping exception returns a
`runtime_error` result with `error = traceback.format_exc(limit=20)`; both
read `events`/`nodes`/`edges` off the recorder. -/
def Runner.run (recorder : TraceRecorder) (outcome : ExecOutcome) : RunResult :=
  match outcome with
  | .normal =>
    { status := "ok", events := recorder.events, nodes := recorder.nodes,
      edges := recorder.edges, error := none }
  | .raised excType excMsg chain =>
    { status := "runtime_error", events := recorder.events,
      nodes := recorder.nodes, edges := recorder.edges,
      error := some (format_exc 20 excType excMsg chain) }

/-- The mapping form of an `Event` (`dataclasses.asdict`): same keys, the
`type` field carried as its underlying string. -/
structure EventDict where
  id : Nat
  type : String
  node_id : Nat
  func_name : String
  filename : String
  lineno : Nat
  locals : List (String × String)
  arg : Option String
deriving DecidableEq, Repr

/-- The mapping form of a `CallNode` (`dataclasses.asdict`). -/
structure NodeDict where
  id : Nat
  func_name : String
  filename : String
  call_event_id : Nat
  args : List (String × String)
  return_event_id : Option Nat
  return_value : Option String
  exception : Option String
deriving DecidableEq, Repr

/-- The mapping form of a `CallEdge` (`dataclasses.asdict`). -/
structure EdgeDict where
  parent_id : Nat
  child_id : Nat
deriving DecidableEq, Repr

/-- The mapping form of a `RunResult` (`RunResult.to_dict`). -/
structure RunResultDict where
  status : String
  error : Option String
  nodes : List NodeDict
  edges : List EdgeDict
  events : List EventDict
deriving DecidableEq, Repr

/-- Python `dataclasses.asdict` on an `Event`. -/
def Event.asdict (e : Event) : EventDict :=
  ⟨e.id, e.type.value, e.node_id, e.func_name, e.filename, e.lineno,
   e.locals, e.arg⟩

/-- Python `dataclasses.asdict` on a `CallNode`. -/
def CallNode.asdict (n : CallNode) : NodeDict :=
  ⟨n.id, n.func_name, n.filename, n.call_event_id, n.args,
   n.return_event_id, n.return_value, n.exception⟩

/-- Python `dataclasses.asdict` on a `CallEdge`. -/
def CallEdge.asdict (e : CallEdge) : EdgeDict :=
  ⟨e.parent_id, e.child_id⟩

/-- Python `RunResult.to_dict` (models.py): status, error, then the three lists in
mapping form via `asdict`. -/
def RunResult.to_dict (r : RunResult) : RunResultDict :=
  ⟨r.status, r.error, r.nodes.map CallNode.asdict, r.edges.map CallEdge.asdict,
   r.events.map Event.asdict⟩

/-- Python `Event.from_dict` (models.py): `EventType(data["type"])` raises on an
unknown string, then the dataclass constructor re-validates. -/
def Event.from_dict (d : EventDict) : Except String Event :=
  match EventType.ofValue d.type with
  | none => .error "ValueError: invalid EventType"
  | some t =>
    Event.make d.id t d.node_id d.func_name d.filename d.lineno d.locals d.arg

/-- Modelled from the spec: reconstruction of a `CallNode` from its mapping
form (the repository serializes nodes via `asdict` but has no node
`from_dict`; the spec's lossless round-trip property requires the evident
field-for-field inverse). -/
def CallNode.from_dict (d : NodeDict) : CallNode :=
  ⟨d.id, d.func_name, d.filename, d.call_event_id, d.args,
   d.return_event_id, d.return_value, d.exception⟩

/-- Modelled from the spec: reconstruction of a `CallEdge` from its mapping
form (field-for-field inverse of `asdict`). -/
def CallEdge.from_dict (d : EdgeDict) : CallEdge :=
  ⟨d.parent_id, d.child_id⟩

/-- Modelled from the spec: reconstruction of a `RunResult` from the mapping
produced by `RunResult.to_dict`, using the repository's `Event.from_dict` for
events and the evident inverses for nodes and edges. -/
def RunResult.from_dict (d : RunResultDict) : Except String RunResult := do
  let events ← d.events.mapM Event.from_dict
  .ok ⟨d.status, events, d.nodes.map CallNode.from_dict,
       d.edges.map CallEdge.from_dict, d.error⟩

/-- The recorder invariant maintained by every `trace` step: event ids are
bounded by the event counter and strictly increasing in log order; the call
stack is a strictly increasing sequence of positive node ids bounded by the
node counter, each naming an existing node; node ids are bounded by the node
counter; every edge goes from a smaller to a larger id and both endpoints
name existing nodes; and a node's terminal fields are set only if a matching
`return` / `exception` event for that node is in the log. -/
structure RecInv (s : TraceRecorder) : Prop where
  ev_le : ∀ e ∈ s.events, e.id ≤ s.event_id
  ev_sorted : s.events.Pairwise (fun e1 e2 => e1.id < e2.id)
  stack_sorted : s.call_stack.Pairwise (· < ·)
  stack_pos : ∀ i ∈ s.call_stack, 0 < i
  stack_le : ∀ i ∈ s.call_stack, i ≤ s.node_id
  stack_mem : ∀ i ∈ s.call_stack, i ∈ s.nodes.map CallNode.id
  node_le : ∀ n ∈ s.nodes, n.id ≤ s.node_id
  edges_lt : ∀ e ∈ s.edges, e.parent_id < e.child_id
  edges_mem : ∀ e ∈ s.edges, e.parent_id ∈ s.nodes.map CallNode.id ∧
    e.child_id ∈ s.nodes.map CallNode.id
  ret_prov : ∀ n ∈ s.nodes, n.return_value.isSome →
    ∃ e ∈ s.events, e.type = EventType.ret ∧ e.node_id = n.id
  exc_prov : ∀ n ∈ s.nodes, n.exception.isSome →
    ∃ e ∈ s.events, e.type = EventType.exception ∧ e.node_id = n.id

/-! ## Concrete fixtures used to instantiate the theorems -/

/-- A frame of the traced file `u.py`. -/
def userFrame : Frame := ⟨"u.py", "f", 3, [("n", ⟨some "2"⟩)]⟩

/-- A frame of a different source file. -/
def libFrame : Frame := ⟨"lib.py", "helper", 10, []⟩

/-- A fresh recorder tracing `u.py` with the default renderer. -/
def recorder0 : TraceRecorder := TraceRecorder.init "u.py" ⟨200⟩

/-- An exception payload, as the runtime passes it to the callback. -/
def excArg : TraceArg :=
  ⟨⟨some "(ValueError, ...)"⟩, some ("ValueError", ⟨some "boom"⟩)⟩

/-- An exception payload whose exception value's `__str__` raises. -/
def badExcArg : TraceArg :=
  ⟨⟨some "(BadError, ...)"⟩, some ("BadError", ⟨none⟩)⟩

/-- The notification sequence CPython emits for a traced call whose body
raises: the `call`, the `exception`, then the unwinding `return` whose
argument is `None`. -/
def raisingRun : List Notification :=
  [⟨userFrame, "call", TraceArg.noneArg⟩,
   ⟨userFrame, "exception", excArg⟩,
   ⟨userFrame, "return", TraceArg.noneArg⟩]

/-- The recorder state after one accepted top-level call on `recorder0`. -/
def recorder1 : TraceRecorder :=
  ⟨"u.py", ⟨200⟩, [⟨1, .call, 1, "f", "u.py", 3, [("n", "2")], none⟩],
   [⟨1, "f", "u.py", 1, [("n", "2")], none, none, none⟩], [], 1, 1, [1]⟩

/-- A second traced-file frame, for a nested call. -/
def userFrame2 : Frame := ⟨"u.py", "g", 8, [("m", ⟨some "7"⟩)]⟩

/-- The recorder state after `recorder1` receives the exception of
`raisingRun`. -/
def recorder2 : TraceRecorder :=
  ⟨"u.py", ⟨200⟩,
   [⟨1, .call, 1, "f", "u.py", 3, [("n", "2")], none⟩,
    ⟨2, .exception, 1, "f", "u.py", 3, [("n", "2")], some "ValueError: boom"⟩],
   [⟨1, "f", "u.py", 1, [("n", "2")], none, none, some "ValueError: boom"⟩],
   [], 2, 1, [1]⟩

/-- The recorder state after all three notifications of `raisingRun`. -/
def recorder3 : TraceRecorder :=
  ⟨"u.py", ⟨200⟩,
   [⟨1, .call, 1, "f", "u.py", 3, [("n", "2")], none⟩,
    ⟨2, .exception, 1, "f", "u.py", 3, [("n", "2")], some "ValueError: boom"⟩,
    ⟨3, .ret, 1, "f", "u.py", 3, [("n", "2")], some "None"⟩],
   [⟨1, "f", "u.py", 1, [("n", "2")], some 3, some "None",
     some "ValueError: boom"⟩],
   [], 3, 1, []⟩

/-- The recorder state after `recorder1` accepts a nested call. -/
def recorderNested : TraceRecorder :=
  ⟨"u.py", ⟨200⟩,
   [⟨1, .call, 1, "f", "u.py", 3, [("n", "2")], none⟩,
    ⟨2, .call, 2, "g", "u.py", 8, [("m", "7")], none⟩],
   [⟨1, "f", "u.py", 1, [("n", "2")], none, none, none⟩,
    ⟨2, "g", "u.py", 2, [("m", "7")], none, none, none⟩],
   [⟨1, 2⟩], 2, 2, [1, 2]⟩

/-- A string one character longer than the default render limit. -/
def longStr : String := String.mk (List.replicate 201 'a')

/-- A valid concrete event, node and edge for the serialization fixtures. -/
def wEvent : Event := ⟨1, .call, 1, "f", "u.py", 3, [("n", "2")], none⟩

/-- A terminal-state call node for the serialization fixtures. -/
def wNode : CallNode := ⟨1, "f", "u.py", 1, [("n", "2")], some 2, some "3", none⟩

/-- A concrete `RunResult` for the serialization fixtures. -/
def wResult : RunResult :=
  ⟨"ok", [wEvent], [wNode], [CallEdge.mk 1 2], none⟩

/-! ## Theorems -/

theorem trace_filter_eq (s : TraceRecorder) (f : Frame) (ev : String)
    (a : TraceArg) (h : f.co_filename ≠ s.user_filename) :
    s.trace f ev a = .ok s := by
  simp [TraceRecorder.trace, TraceRecorder.in_user_code, h]

theorem trace_call_eq (s : TraceRecorder) (f : Frame) (a : TraceArg)
    (hin : f.co_filename = s.user_filename)
    (hname : f.co_name ≠ "") (hfile : f.co_filename ≠ "") :
    s.trace f "call" a = .ok { s with
      node_id := s.node_id + 1,
      event_id := s.event_id + 1,
      edges := s.edges ++ (match s.call_stack.getLast? with
        | some top => [⟨top, s.node_id + 1⟩]
        | none => []),
      events := s.events ++ [⟨s.event_id + 1, .call, s.node_id + 1, f.co_name,
        f.co_filename, f.f_lineno, s.snapshot_locals f, none⟩],
      nodes := s.nodes ++ [⟨s.node_id + 1, f.co_name, f.co_filename,
        s.event_id + 1, s.snapshot_locals f, none, none, none⟩],
      call_stack := s.call_stack ++ [s.node_id + 1] } := by
  rw [TraceRecorder.trace]
  rw [if_neg (by simp [TraceRecorder.in_user_code, hin])]
  rw [if_pos rfl]
  simp only [Event.make]
  rw [if_neg (by omega), if_neg (by omega), if_neg hname, if_neg hfile]
  cases hlast : s.call_stack.getLast? <;> simp

theorem trace_line_eq (s : TraceRecorder) (f : Frame) (a : TraceArg)
    (top : Nat) (hin : f.co_filename = s.user_filename)
    (hname : f.co_name ≠ "") (hfile : f.co_filename ≠ "")
    (htop : s.call_stack.getLast? = some top) (hpos : 0 < top) :
    s.trace f "line" a = .ok { s with
      event_id := s.event_id + 1,
      events := s.events ++ [⟨s.event_id + 1, .line, top, f.co_name,
        f.co_filename, f.f_lineno, s.snapshot_locals f, none⟩] } := by
  have hpos' : top ≠ 0 := by omega
  have hfile' : s.user_filename ≠ "" := by rw [← hin]; exact hfile
  simp [TraceRecorder.trace, TraceRecorder.in_user_code, hin, htop,
    Event.make, hname, hfile, hfile', hpos']

theorem trace_return_eq (s : TraceRecorder) (f : Frame) (a : TraceArg)
    (top : Nat) (hin : f.co_filename = s.user_filename)
    (hname : f.co_name ≠ "") (hfile : f.co_filename ≠ "")
    (htop : s.call_stack.getLast? = some top) (hpos : 0 < top) :
    s.trace f "return" a = .ok { s with
      event_id := s.event_id + 1,
      events := s.events ++ [⟨s.event_id + 1, .ret, top, f.co_name,
        f.co_filename, f.f_lineno, s.snapshot_locals f,
        some (s.safe_repr.call a.value)⟩],
      nodes := set_node_return s.nodes top (s.event_id + 1)
        (s.safe_repr.call a.value),
      call_stack := s.call_stack.dropLast } := by
  have hpos' : top ≠ 0 := by omega
  have hfile' : s.user_filename ≠ "" := by rw [← hin]; exact hfile
  simp [TraceRecorder.trace, TraceRecorder.in_user_code, hin, htop,
    Event.make, hname, hfile, hfile', hpos']

theorem trace_exception_eq (s : TraceRecorder) (f : Frame) (a : TraceArg)
    (top : Nat) (ty msg : String) (hin : f.co_filename = s.user_filename)
    (hname : f.co_name ≠ "") (hfile : f.co_filename ≠ "")
    (htop : s.call_stack.getLast? = some top) (hpos : 0 < top)
    (hexc : a.excInfo = some (ty, ⟨some msg⟩)) :
    s.trace f "exception" a = .ok { s with
      event_id := s.event_id + 1,
      events := s.events ++ [⟨s.event_id + 1, .exception, top, f.co_name,
        f.co_filename, f.f_lineno, s.snapshot_locals f,
        some (ty ++ ": " ++ msg)⟩],
      nodes := set_node_exception s.nodes top (ty ++ ": " ++ msg) } := by
  have hpos' : top ≠ 0 := by omega
  have hfile' : s.user_filename ≠ "" := by rw [← hin]; exact hfile
  simp [TraceRecorder.trace, TraceRecorder.in_user_code, hin, htop, hexc,
    Event.make, hname, hfile, hfile', hpos']

theorem trace_empty_stack_eq (s : TraceRecorder) (f : Frame) (ev : String)
    (a : TraceArg) (hev : ev ≠ "call") (hstack : s.call_stack = []) :
    s.trace f ev a = .ok s := by
  by_cases hin : f.co_filename = s.user_filename
  · rw [TraceRecorder.trace]
    rw [if_neg (by simp [TraceRecorder.in_user_code, hin])]
    rw [if_neg hev]
    simp [hstack]
  · exact trace_filter_eq s f ev a hin

theorem trace_unknown_eq (s : TraceRecorder) (f : Frame) (ev : String)
    (a : TraceArg) (h1 : ev ≠ "call") (h2 : ev ≠ "line") (h3 : ev ≠ "return")
    (h4 : ev ≠ "exception") :
    s.trace f ev a = .ok s := by
  by_cases hin : f.co_filename = s.user_filename
  · cases hlast : s.call_stack.getLast? with
    | none =>
      simp [TraceRecorder.trace, TraceRecorder.in_user_code, hin, h1, hlast]
    | some top =>
      simp [TraceRecorder.trace, TraceRecorder.in_user_code, hin, h1, h2, h3,
        h4, hlast]
  · exact trace_filter_eq s f ev a hin

theorem map_eq_self_of_eq {α : Type} (l : List α) (g : α → α)
    (h : ∀ x ∈ l, g x = x) : l.map g = l := by
  induction l with
  | nil => rfl
  | cons a l ih =>
    rw [List.map_cons, h a (List.mem_cons_self a l),
      ih (fun x hx => h x (List.mem_cons_of_mem a hx))]

theorem set_node_exception_eq_map (l : List CallNode) (i : Nat) (r : String)
    (h : (l.map CallNode.id).Nodup) :
    set_node_exception l i r =
      l.map (fun n => if n.id = i then { n with exception := some r } else n) := by
  induction l with
  | nil => rfl
  | cons n rest ih =>
    rw [List.map_cons, List.nodup_cons] at h
    by_cases hid : n.id = i
    · have hrest : ∀ m ∈ rest, (fun n => if n.id = i
          then { n with exception := some r } else n) m = m := by
        intro m hm
        have hne : m.id ≠ i := by
          intro he
          have hmm : m.id ∈ rest.map CallNode.id :=
            List.mem_map_of_mem CallNode.id hm
          rw [he, ← hid] at hmm
          exact h.1 hmm
        simp [hne]
      simp only [set_node_exception, List.map_cons, if_pos hid,
        map_eq_self_of_eq rest _ hrest]
    · simp only [set_node_exception, List.map_cons, if_neg hid, ih h.2]

/-! ## Theorems settling the claims -/

/-- C5: a notification whose frame's source file differs from the traced file
is ignored entirely: `trace` returns with the recorder state unchanged — no
event id or node id allocated, nothing appended to the event log, node list,
edge list, or call stack. -/
theorem scope_filter_ignores_other_files (s : TraceRecorder) (f : Frame)
    (ev : String) (a : TraceArg) (h : f.co_filename ≠ s.user_filename) :
    s.trace f ev a = .ok s :=
  trace_filter_eq s f ev a h

/-- Witness for C5 at a concrete recorder state and foreign frame. -/
theorem scope_filter_ignores_other_files_witness :
    libFrame.co_filename ≠ recorder0.user_filename ∧
      recorder0.trace libFrame "call" TraceArg.noneArg = .ok recorder0 :=
  ⟨by decide, scope_filter_ignores_other_files recorder0 libFrame "call"
    TraceArg.noneArg (by decide)⟩

theorem string_length_mk (l : List Char) : (String.mk l).length = l.length :=
  rfl

/-- C7: `SafeRepr.call` never raises and, whenever the sentinel itself fits
the configured limit (as it does at the default 200): rendering failure gives
the fixed sentinel; a textual form within the limit is returned unchanged; a
longer one becomes its first `max_len` characters followed by the single
truncation marker, of total length `max_len + 1`. -/
theorem safe_repr_spec (r : SafeRepr) (v : PyValue)
    (hfit : ("<unrepr-able>" : String).length ≤ r.max_len) :
    (v.reprStr? = none → r.call v = "<unrepr-able>") ∧
    (∀ s, v.reprStr? = some s → s.length ≤ r.max_len → r.call v = s) ∧
    (∀ s, v.reprStr? = some s → r.max_len < s.length →
      r.call v = s.take r.max_len ++ "…" ∧
      (r.call v).length = r.max_len + 1) := by
  refine ⟨?_, ?_, ?_⟩
  · intro h
    simp [SafeRepr.call, h]
    intro hgt
    omega
  · intro s h hle
    simp [SafeRepr.call, h]
    omega
  · intro s h hlt
    have hcall : r.call v = s.take r.max_len ++ "…" := by
      simp [SafeRepr.call, h, hlt]
    refine ⟨hcall, ?_⟩
    rw [hcall, String.length_append, String.take_eq, string_length_mk,
      List.length_take]
    have hds : s.length = s.data.length := rfl
    have hone : ("…" : String).length = 1 := rfl
    omega

set_option maxRecDepth 2000 in
theorem longStr_length : longStr.length = 201 := by
  rw [longStr, string_length_mk, List.length_replicate]

/-- Witness for C7 at the default limit 200: sentinel on failure, identity on
a short string, length limit+1 on a 201-character string. -/
theorem safe_repr_spec_witness :
    (("<unrepr-able>" : String).length ≤ (200 : Nat)) ∧
      SafeRepr.call ⟨200⟩ ⟨none⟩ = "<unrepr-able>" ∧
      SafeRepr.call ⟨200⟩ ⟨some "42"⟩ = "42" ∧
      (SafeRepr.call ⟨200⟩ ⟨some longStr⟩).length = 201 :=
  ⟨by decide, (safe_repr_spec ⟨200⟩ ⟨none⟩ (by decide)).1 rfl,
    (safe_repr_spec ⟨200⟩ ⟨some "42"⟩ (by decide)).2.1 "42" rfl (by decide),
    ((safe_repr_spec ⟨200⟩ ⟨some longStr⟩ (by decide)).2.2 longStr rfl
      (by simp [longStr_length])).2⟩

/-- C8: `Runner.run` returns status `ok` with no error on normal completion,
and on an escaping exception returns status `runtime_error`, a non-empty
formatted error description, and everything the recorder accumulated before
the failure; the error field is present iff the status is `runtime_error`. -/
theorem runner_run_spec (rec : TraceRecorder) (o : ExecOutcome) :
    (o = .normal →
      Runner.run rec o =
        ⟨"ok", rec.events, rec.nodes, rec.edges, none⟩) ∧
    (∀ t m c, o = .raised t m c →
      (Runner.run rec o).status = "runtime_error" ∧
      (∃ err, (Runner.run rec o).error = some err ∧ err ≠ "") ∧
      (Runner.run rec o).events = rec.events ∧
      (Runner.run rec o).nodes = rec.nodes ∧
      (Runner.run rec o).edges = rec.edges) ∧
    ((Runner.run rec o).error.isSome ↔
      (Runner.run rec o).status = "runtime_error") := by
  refine ⟨?_, ?_, ?_⟩
  · rintro rfl; rfl
  · rintro t m c rfl
    refine ⟨rfl, ⟨format_exc 20 t m c, rfl, ?_⟩, rfl, rfl, rfl⟩
    intro hempty
    have : (format_exc 20 t m c).length = 0 := by rw [hempty]; rfl
    rw [format_exc] at this
    rw [String.length_append, String.length_append, String.length_append,
      String.length_append] at this
    have hcolon : (": " : String).length = 2 := by decide
    omega
  · cases o with
    | normal => simp [Runner.run]
    | raised t m c => simp [Runner.run]

/-- Witness for C8 at a concrete recorder and both outcomes. -/
theorem runner_run_spec_witness :
    Runner.run recorder0 .normal = ⟨"ok", [], [], [], none⟩ ∧
      (Runner.run recorder0 (.raised "ValueError" "boom" [])).status =
        "runtime_error" ∧
      (Runner.run recorder0 (.raised "ValueError" "boom" [])).error.isSome := by
  have h := runner_run_spec recorder0 (.raised "ValueError" "boom" [])
  exact ⟨by rw [(runner_run_spec recorder0 .normal).1 rfl]; rfl,
    (h.2.1 "ValueError" "boom" [] rfl).1,
    h.2.2.mpr (h.2.1 "ValueError" "boom" [] rfl).1⟩

theorem EventType.ofValue_value (t : EventType) :
    EventType.ofValue t.value = some t := by
  cases t <;> rfl

theorem Event.from_dict_asdict (e : Event) (h : e.valid) :
    Event.from_dict e.asdict = .ok e := by
  obtain ⟨h1, h2, h3, h4⟩ := h
  rw [Event.from_dict]
  show (match EventType.ofValue e.asdict.type with
    | none => Except.error "ValueError: invalid EventType"
    | some t => Event.make e.asdict.id t e.asdict.node_id e.asdict.func_name
        e.asdict.filename e.asdict.lineno e.asdict.locals e.asdict.arg) = .ok e
  rw [show e.asdict.type = e.type.value from rfl, EventType.ofValue_value]
  show Event.make e.id e.type e.node_id e.func_name e.filename e.lineno
    e.locals e.arg = .ok e
  rw [Event.make]
  rw [if_neg (by omega), if_neg (by omega), if_neg h3, if_neg h4]

theorem mapM_from_dict_asdict (l : List Event) (h : ∀ e ∈ l, e.valid) :
    (l.map Event.asdict).mapM Event.from_dict = Except.ok l := by
  induction l with
  | nil => rfl
  | cons a l ih =>
    have ha : a.valid := h a (List.mem_cons_self a l)
    have hl : ∀ e ∈ l, e.valid := fun e he => h e (List.mem_cons_of_mem a he)
    rw [List.map_cons, List.mapM_cons, Event.from_dict_asdict a ha, ih hl]
    rfl

/-- C9: serializing a `RunResult` built from valid events to its mapping form
(`to_dict`) and reconstructing from that mapping preserves every event, node
and edge field exactly — a lossless structural round-trip. -/
theorem run_result_round_trip (r : RunResult) (h : ∀ e ∈ r.events, e.valid) :
    RunResult.from_dict r.to_dict = .ok r := by
  rw [RunResult.from_dict, RunResult.to_dict]
  show (do
    let events ← (r.events.map Event.asdict).mapM Event.from_dict
    Except.ok (⟨r.status, events,
      (r.nodes.map CallNode.asdict).map CallNode.from_dict,
      (r.edges.map CallEdge.asdict).map CallEdge.from_dict, r.error⟩ :
      RunResult)) = .ok r
  rw [mapM_from_dict_asdict r.events h]
  show Except.ok (⟨r.status, r.events,
      (r.nodes.map CallNode.asdict).map CallNode.from_dict,
      (r.edges.map CallEdge.asdict).map CallEdge.from_dict, r.error⟩ :
      RunResult) = .ok r
  rw [List.map_map, List.map_map]
  have hn : CallNode.from_dict ∘ CallNode.asdict = id := rfl
  have he : CallEdge.from_dict ∘ CallEdge.asdict = id := rfl
  rw [hn, he, List.map_id, List.map_id]

/-- Witness for C9 at a concrete one-event, one-node, one-edge result. -/
theorem run_result_round_trip_witness :
    (∀ e ∈ wResult.events, e.valid) ∧
      RunResult.from_dict wResult.to_dict = .ok wResult :=
  ⟨by decide, run_result_round_trip wResult (by decide)⟩

/-- C2: a `call` notification accepted by the scope filter allocates the next
node id, appends a parent→child `CallEdge` exactly when the call stack is
non-empty (none when empty), allocates the next event id, appends exactly one
`call` event carrying the rendered snapshot of the frame's locals, appends
exactly one `CallNode` whose `call_event_id` is that event's id and whose
`args` equal the same rendered snapshot, and pushes the new node id. -/
theorem trace_call_spec (s : TraceRecorder) (f : Frame) (a : TraceArg)
    (hin : f.co_filename = s.user_filename)
    (hname : f.co_name ≠ "") (hfile : f.co_filename ≠ "") :
    s.trace f "call" a = .ok { s with
      node_id := s.node_id + 1,
      event_id := s.event_id + 1,
      edges := s.edges ++ (match s.call_stack.getLast? with
        | some top => [⟨top, s.node_id + 1⟩]
        | none => []),
      events := s.events ++ [⟨s.event_id + 1, .call, s.node_id + 1, f.co_name,
        f.co_filename, f.f_lineno, s.snapshot_locals f, none⟩],
      nodes := s.nodes ++ [⟨s.node_id + 1, f.co_name, f.co_filename,
        s.event_id + 1, s.snapshot_locals f, none, none, none⟩],
      call_stack := s.call_stack ++ [s.node_id + 1] } :=
  trace_call_eq s f a hin hname hfile

/-- Witness for C2: the first accepted call on a fresh recorder. -/
theorem trace_call_spec_witness :
    userFrame.co_filename = recorder0.user_filename ∧
      userFrame.co_name ≠ "" ∧
      recorder0.trace userFrame "call" TraceArg.noneArg = .ok
        { recorder0 with
          node_id := 1, event_id := 1, edges := [],
          events := [⟨1, .call, 1, "f", "u.py", 3, [("n", "2")], none⟩],
          nodes := [⟨1, "f", "u.py", 1, [("n", "2")], none, none, none⟩],
          call_stack := [1] } := by
  refine ⟨rfl, by decide, ?_⟩
  rw [trace_call_spec recorder0 userFrame TraceArg.noneArg rfl (by decide)
    (by decide)]
  rfl

/-- C3: an `exception` notification accepted with a non-empty call stack
appends one `exception` event tagged with the top-of-stack node id, whose
detail string is `"<TypeName>: <message>"`, sets that node's exception-info
field (and touches no other node), and leaves the call stack unchanged — it
does not pop. -/
theorem trace_exception_spec (s : TraceRecorder) (f : Frame) (a : TraceArg)
    (top : Nat) (ty msg : String) (hin : f.co_filename = s.user_filename)
    (hname : f.co_name ≠ "") (hfile : f.co_filename ≠ "")
    (htop : s.call_stack.getLast? = some top) (hpos : 0 < top)
    (hexc : a.excInfo = some (ty, ⟨some msg⟩))
    (hnodup : (s.nodes.map CallNode.id).Nodup) :
    s.trace f "exception" a = .ok { s with
      event_id := s.event_id + 1,
      events := s.events ++ [⟨s.event_id + 1, .exception, top, f.co_name,
        f.co_filename, f.f_lineno, s.snapshot_locals f,
        some (ty ++ ": " ++ msg)⟩],
      nodes := s.nodes.map (fun n => if n.id = top
        then { n with exception := some (ty ++ ": " ++ msg) } else n) } := by
  rw [trace_exception_eq s f a top ty msg hin hname hfile htop hpos hexc,
    set_node_exception_eq_map s.nodes top (ty ++ ": " ++ msg) hnodup]

/-- Witness for C3: an exception arriving while the first call is active. -/
theorem trace_exception_spec_witness :
    recorder1.call_stack.getLast? = some 1 ∧
      excArg.excInfo = some ("ValueError", ⟨some "boom"⟩) ∧
      recorder1.trace userFrame "exception" excArg = .ok { recorder1 with
        event_id := 2,
        events := recorder1.events ++ [⟨2, .exception, 1, "f", "u.py", 3,
          [("n", "2")], some "ValueError: boom"⟩],
        nodes := [⟨1, "f", "u.py", 1, [("n", "2")], none, none,
          some "ValueError: boom"⟩] } := by
  refine ⟨rfl, rfl, ?_⟩
  rw [trace_exception_spec recorder1 userFrame excArg 1 "ValueError" "boom"
    rfl (by decide) (by decide) rfl (by decide) rfl (by decide)]
  rfl

/-- C4 (amended): the trace callback never raises for any notification the
runtime can deliver — named frames, exception notifications carrying the
exception triple — EXCEPT an `exception` notification (with a non-empty
stack) whose exception value's own `str` raises: there the unguarded
f-string propagates the failure.  For every notification whose exception
message renders, the callback returns normally, and out-of-protocol
notifications — a `line`, `return`, or `exception` (indeed anything but a
`call`) arriving while the call stack is empty — are silently ignored as a
no-op, leaving the state unchanged. -/
theorem trace_never_raises (s : TraceRecorder) (f : Frame) (ev : String)
    (a : TraceArg) (hname : f.co_name ≠ "") (hfile : f.co_filename ≠ "")
    (hstack : ∀ i ∈ s.call_stack, 0 < i)
    (hexc : ev = "exception" → ∃ ty m, a.excInfo = some (ty, ⟨some m⟩)) :
    (∃ s', s.trace f ev a = .ok s') ∧
    (s.call_stack = [] → ev ≠ "call" → s.trace f ev a = .ok s) := by
  refine ⟨?_, fun h1 h2 => trace_empty_stack_eq s f ev a h2 h1⟩
  by_cases hin : f.co_filename = s.user_filename
  · by_cases hev1 : ev = "call"
    · subst hev1
      exact ⟨_, trace_call_eq s f a hin hname hfile⟩
    · cases hlast : s.call_stack.getLast? with
      | none =>
        exact ⟨s, trace_empty_stack_eq s f ev a hev1
          (List.getLast?_eq_none_iff.mp hlast)⟩
      | some top =>
        have hpos : 0 < top := hstack top (List.mem_of_getLast?_eq_some hlast)
        by_cases hev2 : ev = "line"
        · subst hev2
          exact ⟨_, trace_line_eq s f a top hin hname hfile hlast hpos⟩
        · by_cases hev3 : ev = "return"
          · subst hev3
            exact ⟨_, trace_return_eq s f a top hin hname hfile hlast hpos⟩
          · by_cases hev4 : ev = "exception"
            · subst hev4
              obtain ⟨ty, m, hsome⟩ := hexc rfl
              exact ⟨_, trace_exception_eq s f a top ty m hin hname hfile
                hlast hpos hsome⟩
            · exact ⟨s, trace_unknown_eq s f ev a hev1 hev2 hev3 hev4⟩
  · exact ⟨s, trace_filter_eq s f ev a hin⟩

/-- Witness for C4: a `return` notification on an empty stack is accepted and
is a no-op. -/
theorem trace_never_raises_witness :
    (∀ i ∈ recorder0.call_stack, 0 < i) ∧
      recorder0.trace userFrame "return" TraceArg.noneArg = .ok recorder0 :=
  ⟨by decide,
    (trace_never_raises recorder0 userFrame "return" TraceArg.noneArg
      (by decide) (by decide) (by decide)
      (fun h => absurd h (by decide))).2 rfl (by decide)⟩

/-- C4 fails on the code as originally claimed: an `exception` notification
whose exception value's `__str__` itself raises makes the unguarded f-string
`f"{exc_type.__name__}: {exc_val}"` in the exception branch raise, and the
callback propagates that exception to the caller instead of recording — here
at a concrete reachable state with a non-empty call stack. -/
theorem trace_exception_str_raises_cex :
    recorder1.trace userFrame "exception" badExcArg =
      .error "Exception raised by str(exc_value)" := rfl

theorem set_node_return_map_id (l : List CallNode) (i e : Nat) (r : String) :
    (set_node_return l i e r).map CallNode.id = l.map CallNode.id := by
  induction l with
  | nil => rfl
  | cons n rest ih =>
    rw [set_node_return]
    by_cases hid : n.id = i
    · rw [if_pos hid]; rfl
    · rw [if_neg hid, List.map_cons, List.map_cons, ih]

theorem set_node_exception_map_id (l : List CallNode) (i : Nat) (r : String) :
    (set_node_exception l i r).map CallNode.id = l.map CallNode.id := by
  induction l with
  | nil => rfl
  | cons n rest ih =>
    rw [set_node_exception]
    by_cases hid : n.id = i
    · rw [if_pos hid]; rfl
    · rw [if_neg hid, List.map_cons, List.map_cons, ih]

theorem set_node_return_cases (l : List CallNode) (i e : Nat) (r : String) :
    ∀ n' ∈ set_node_return l i e r, n' ∈ l ∨ ∃ n ∈ l, n.id = i ∧
      n' = { n with return_event_id := some e, return_value := some r } := by
  induction l with
  | nil => intro n' h; cases h
  | cons n rest ih =>
    intro n' h
    rw [set_node_return] at h
    by_cases hid : n.id = i
    · rw [if_pos hid] at h
      rcases List.mem_cons.mp h with h1 | h1
      · exact Or.inr ⟨n, List.mem_cons_self n rest, hid, h1⟩
      · exact Or.inl (List.mem_cons_of_mem n h1)
    · rw [if_neg hid] at h
      rcases List.mem_cons.mp h with h1 | h1
      · exact Or.inl (h1 ▸ List.mem_cons_self n rest)
      · rcases ih n' h1 with h2 | ⟨m, hm, hmi, hme⟩
        · exact Or.inl (List.mem_cons_of_mem n h2)
        · exact Or.inr ⟨m, List.mem_cons_of_mem n hm, hmi, hme⟩

theorem set_node_exception_cases (l : List CallNode) (i : Nat) (r : String) :
    ∀ n' ∈ set_node_exception l i r, n' ∈ l ∨ ∃ n ∈ l, n.id = i ∧
      n' = { n with exception := some r } := by
  induction l with
  | nil => intro n' h; cases h
  | cons n rest ih =>
    intro n' h
    rw [set_node_exception] at h
    by_cases hid : n.id = i
    · rw [if_pos hid] at h
      rcases List.mem_cons.mp h with h1 | h1
      · exact Or.inr ⟨n, List.mem_cons_self n rest, hid, h1⟩
      · exact Or.inl (List.mem_cons_of_mem n h1)
    · rw [if_neg hid] at h
      rcases List.mem_cons.mp h with h1 | h1
      · exact Or.inl (h1 ▸ List.mem_cons_self n rest)
      · rcases ih n' h1 with h2 | ⟨m, hm, hmi, hme⟩
        · exact Or.inl (List.mem_cons_of_mem n h2)
        · exact Or.inr ⟨m, List.mem_cons_of_mem n hm, hmi, hme⟩

theorem Event.make_ok {i : Nat} {t : EventType} {nid : Nat} {fn fl : String}
    {ln : Nat} {lc : List (String × String)} {ar : Option String} {e : Event}
    (h : Event.make i t nid fn fl ln lc ar = .ok e) :
    e = ⟨i, t, nid, fn, fl, ln, lc, ar⟩ := by
  rw [Event.make] at h
  split_ifs at h
  exact (Except.ok.inj h).symm

theorem inv_step {s s' : TraceRecorder} {f : Frame} {ev : String}
    {a : TraceArg} (inv : RecInv s) (h : s.trace f ev a = .ok s') :
    RecInv s' := by
  by_cases hin : f.co_filename = s.user_filename
  case neg =>
    rw [trace_filter_eq s f ev a hin] at h
    have hs : s = s' := Except.ok.inj h
    exact hs ▸ inv
  case pos =>
    by_cases hev1 : ev = "call"
    · subst hev1
      simp only [TraceRecorder.trace, TraceRecorder.in_user_code, hin,
        decide_True, not_true, Bool.false_eq_true, if_false, if_true] at h
      cases hmk : Event.make (s.event_id + 1) .call (s.node_id + 1) f.co_name
          s.user_filename f.f_lineno (s.snapshot_locals f) none with
      | error m => rw [hmk] at h; simp at h
      | ok e =>
        rw [hmk] at h
        have he := Event.make_ok hmk
        subst he
        have hs : s' = _ := (Except.ok.inj h).symm
        subst hs
        refine ⟨?_, ?_, ?_, ?_, ?_, ?_, ?_, ?_, ?_, ?_, ?_⟩
        · intro e he
          rcases List.mem_append.mp he with h1 | h1
          · exact Nat.le_succ_of_le (inv.ev_le e h1)
          · rw [List.mem_singleton] at h1; subst h1; exact Nat.le_refl _
        · refine List.pairwise_append.mpr
            ⟨inv.ev_sorted, List.pairwise_singleton _ _, ?_⟩
          intro e1 h1 e2 h2
          rw [List.mem_singleton] at h2
          subst h2
          exact Nat.lt_succ_of_le (inv.ev_le e1 h1)
        · refine List.pairwise_append.mpr
            ⟨inv.stack_sorted, List.pairwise_singleton _ _, ?_⟩
          intro i h1 j h2
          rw [List.mem_singleton] at h2
          subst h2
          exact Nat.lt_succ_of_le (inv.stack_le i h1)
        · intro i hi
          rcases List.mem_append.mp hi with h1 | h1
          · exact inv.stack_pos i h1
          · rw [List.mem_singleton] at h1; omega
        · intro i hi
          rcases List.mem_append.mp hi with h1 | h1
          · exact Nat.le_succ_of_le (inv.stack_le i h1)
          · rw [List.mem_singleton] at h1
            rw [h1]
        · intro i hi
          rw [List.map_append]
          rcases List.mem_append.mp hi with h1 | h1
          · exact List.mem_append_left _ (inv.stack_mem i h1)
          · rw [List.mem_singleton] at h1
            subst h1
            apply List.mem_append_right
            simp
        · intro n hn
          rcases List.mem_append.mp hn with h1 | h1
          · exact Nat.le_succ_of_le (inv.node_le n h1)
          · rw [List.mem_singleton] at h1; subst h1; exact Nat.le_refl _
        · intro ed hed
          cases hlast : s.call_stack.getLast? with
          | none =>
            simp only [hlast] at hed
            exact inv.edges_lt ed hed
          | some top =>
            simp only [hlast] at hed
            rcases List.mem_append.mp hed with h1 | h1
            · exact inv.edges_lt ed h1
            · rw [List.mem_singleton] at h1
              subst h1
              have := inv.stack_le top (List.mem_of_getLast?_eq_some hlast)
              simp only [CallEdge.mk.injEq]
              omega
        · intro ed hed
          rw [List.map_append]
          cases hlast : s.call_stack.getLast? with
          | none =>
            simp only [hlast] at hed
            have := inv.edges_mem ed hed
            exact ⟨List.mem_append_left _ this.1, List.mem_append_left _ this.2⟩
          | some top =>
            simp only [hlast] at hed
            rcases List.mem_append.mp hed with h1 | h1
            · have := inv.edges_mem ed h1
              exact ⟨List.mem_append_left _ this.1,
                List.mem_append_left _ this.2⟩
            · rw [List.mem_singleton] at h1
              subst h1
              refine ⟨List.mem_append_left _
                (inv.stack_mem top (List.mem_of_getLast?_eq_some hlast)), ?_⟩
              apply List.mem_append_right
              simp
        · intro n hn hsome
          rcases List.mem_append.mp hn with h1 | h1
          · obtain ⟨e1, he1, hp⟩ := inv.ret_prov n h1 hsome
            exact ⟨e1, List.mem_append_left _ he1, hp⟩
          · rw [List.mem_singleton] at h1; subst h1; simp at hsome
        · intro n hn hsome
          rcases List.mem_append.mp hn with h1 | h1
          · obtain ⟨e1, he1, hp⟩ := inv.exc_prov n h1 hsome
            exact ⟨e1, List.mem_append_left _ he1, hp⟩
          · rw [List.mem_singleton] at h1; subst h1; simp at hsome
    · simp only [TraceRecorder.trace, TraceRecorder.in_user_code, hin,
        decide_True, not_true, Bool.false_eq_true, if_false, if_true] at h
      rw [if_neg hev1] at h
      cases hlast : s.call_stack.getLast? with
      | none =>
        simp only [hlast] at h
        have hs : s = s' := Except.ok.inj h
        exact hs ▸ inv
      | some top =>
        simp only [hlast] at h
        have htopmem := List.mem_of_getLast?_eq_some hlast
        by_cases hev2 : ev = "line"
        · subst hev2
          rw [if_pos rfl] at h
          cases hmk : Event.make (s.event_id + 1) .line top f.co_name
              s.user_filename f.f_lineno (s.snapshot_locals f) none with
          | error m => rw [hmk] at h; simp at h
          | ok e =>
            rw [hmk] at h
            have he := Event.make_ok hmk
            subst he
            have hs : s' = _ := (Except.ok.inj h).symm
            subst hs
            refine ⟨?_, ?_, inv.stack_sorted, inv.stack_pos, inv.stack_le,
              inv.stack_mem, inv.node_le, inv.edges_lt, inv.edges_mem,
              ?_, ?_⟩
            · intro e he
              rcases List.mem_append.mp he with h1 | h1
              · exact Nat.le_succ_of_le (inv.ev_le e h1)
              · rw [List.mem_singleton] at h1; subst h1; exact Nat.le_refl _
            · refine List.pairwise_append.mpr
                ⟨inv.ev_sorted, List.pairwise_singleton _ _, ?_⟩
              intro e1 h1 e2 h2
              rw [List.mem_singleton] at h2
              subst h2
              exact Nat.lt_succ_of_le (inv.ev_le e1 h1)
            · intro n hn hsome
              obtain ⟨e1, he1, hp⟩ := inv.ret_prov n hn hsome
              exact ⟨e1, List.mem_append_left _ he1, hp⟩
            · intro n hn hsome
              obtain ⟨e1, he1, hp⟩ := inv.exc_prov n hn hsome
              exact ⟨e1, List.mem_append_left _ he1, hp⟩
        · rw [if_neg hev2] at h
          by_cases hev3 : ev = "return"
          · subst hev3
            rw [if_pos rfl] at h
            cases hmk : Event.make (s.event_id + 1) .ret top f.co_name
                s.user_filename f.f_lineno (s.snapshot_locals f)
                (some (s.safe_repr.call a.value)) with
            | error m => rw [hmk] at h; simp at h
            | ok e =>
              rw [hmk] at h
              have he := Event.make_ok hmk
              subst he
              have hs : s' = _ := (Except.ok.inj h).symm
              subst hs
              refine ⟨?_, ?_, ?_, ?_, ?_, ?_, ?_, inv.edges_lt, ?_, ?_, ?_⟩
              · intro e he
                rcases List.mem_append.mp he with h1 | h1
                · exact Nat.le_succ_of_le (inv.ev_le e h1)
                · rw [List.mem_singleton] at h1; subst h1; exact Nat.le_refl _
              · refine List.pairwise_append.mpr
                  ⟨inv.ev_sorted, List.pairwise_singleton _ _, ?_⟩
                intro e1 h1 e2 h2
                rw [List.mem_singleton] at h2
                subst h2
                exact Nat.lt_succ_of_le (inv.ev_le e1 h1)
              · exact List.Pairwise.sublist (List.dropLast_sublist _)
                  inv.stack_sorted
              · intro i hi
                exact inv.stack_pos i ((List.dropLast_sublist _).subset hi)
              · intro i hi
                exact inv.stack_le i ((List.dropLast_sublist _).subset hi)
              · intro i hi
                rw [set_node_return_map_id]
                exact inv.stack_mem i ((List.dropLast_sublist _).subset hi)
              · intro n' hn'
                rcases set_node_return_cases _ _ _ _ n' hn' with
                  h1 | ⟨n, hnmem, hni, hne⟩
                · exact inv.node_le n' h1
                · subst hne
                  exact inv.node_le n hnmem
              · intro ed hed
                rw [set_node_return_map_id]
                exact inv.edges_mem ed hed
              · intro n' hn' hsome
                rcases set_node_return_cases _ _ _ _ n' hn' with
                  h1 | ⟨n, hnmem, hni, hne⟩
                · obtain ⟨e1, he1, hp⟩ := inv.ret_prov n' h1 hsome
                  exact ⟨e1, List.mem_append_left _ he1, hp⟩
                · subst hne
                  refine ⟨_, List.mem_append_right _ (List.mem_singleton.mpr
                    rfl), rfl, ?_⟩
                  exact hni.symm
              · intro n' hn' hsome
                rcases set_node_return_cases _ _ _ _ n' hn' with
                  h1 | ⟨n, hnmem, hni, hne⟩
                · obtain ⟨e1, he1, hp⟩ := inv.exc_prov n' h1 hsome
                  exact ⟨e1, List.mem_append_left _ he1, hp⟩
                · subst hne
                  obtain ⟨e1, he1, hp⟩ := inv.exc_prov n hnmem hsome
                  exact ⟨e1, List.mem_append_left _ he1, hp⟩
          · rw [if_neg hev3] at h
            by_cases hev4 : ev = "exception"
            · subst hev4
              rw [if_pos rfl] at h
              cases harg : a.excInfo with
              | none => simp only [harg] at h; simp at h
              | some p =>
                obtain ⟨ty, v⟩ := p
                simp only [harg] at h
                cases hstr : v.str? with
                | none => simp only [hstr] at h; simp at h
                | some m =>
                simp only [hstr] at h
                cases hmk : Event.make (s.event_id + 1) .exception top
                    f.co_name s.user_filename f.f_lineno
                    (s.snapshot_locals f) (some (ty ++ ": " ++ m)) with
                | error msg => rw [hmk] at h; simp at h
                | ok e =>
                  rw [hmk] at h
                  have he := Event.make_ok hmk
                  subst he
                  have hs : s' = _ := (Except.ok.inj h).symm
                  subst hs
                  refine ⟨?_, ?_, inv.stack_sorted, inv.stack_pos,
                    inv.stack_le, ?_, ?_, inv.edges_lt, ?_, ?_, ?_⟩
                  · intro e he
                    rcases List.mem_append.mp he with h1 | h1
                    · exact Nat.le_succ_of_le (inv.ev_le e h1)
                    · rw [List.mem_singleton] at h1
                      subst h1
                      exact Nat.le_refl _
                  · refine List.pairwise_append.mpr
                      ⟨inv.ev_sorted, List.pairwise_singleton _ _, ?_⟩
                    intro e1 h1 e2 h2
                    rw [List.mem_singleton] at h2
                    subst h2
                    exact Nat.lt_succ_of_le (inv.ev_le e1 h1)
                  · intro i hi
                    rw [set_node_exception_map_id]
                    exact inv.stack_mem i hi
                  · intro n' hn'
                    rcases set_node_exception_cases _ _ _ n' hn' with
                      h1 | ⟨n, hnmem, hni, hne⟩
                    · exact inv.node_le n' h1
                    · subst hne
                      exact inv.node_le n hnmem
                  · intro ed hed
                    rw [set_node_exception_map_id]
                    exact inv.edges_mem ed hed
                  · intro n' hn' hsome
                    rcases set_node_exception_cases _ _ _ n' hn' with
                      h1 | ⟨n, hnmem, hni, hne⟩
                    · obtain ⟨e1, he1, hp⟩ := inv.ret_prov n' h1 hsome
                      exact ⟨e1, List.mem_append_left _ he1, hp⟩
                    · subst hne
                      obtain ⟨e1, he1, hp⟩ := inv.ret_prov n hnmem hsome
                      exact ⟨e1, List.mem_append_left _ he1, hp⟩
                  · intro n' hn' hsome
                    rcases set_node_exception_cases _ _ _ n' hn' with
                      h1 | ⟨n, hnmem, hni, hne⟩
                    · obtain ⟨e1, he1, hp⟩ := inv.exc_prov n' h1 hsome
                      exact ⟨e1, List.mem_append_left _ he1, hp⟩
                    · subst hne
                      refine ⟨_, List.mem_append_right _
                        (List.mem_singleton.mpr rfl), rfl, ?_⟩
                      exact hni.symm
            · rw [if_neg hev4] at h
              have hs : s = s' := Except.ok.inj h
              exact hs ▸ inv

theorem reaches_inv {fn : String} {r : SafeRepr} {s : TraceRecorder}
    (h : Reaches fn r s) : RecInv s := by
  induction h with
  | init => constructor <;> simp [TraceRecorder.init]
  | step hr hstep ih => exact inv_step ih hstep

theorem reaches_recorder1 : Reaches "u.py" ⟨200⟩ recorder1 :=
  @Reaches.step "u.py" ⟨200⟩ (TraceRecorder.init "u.py" ⟨200⟩) recorder1
    userFrame "call" TraceArg.noneArg Reaches.init rfl

theorem reaches_recorder2 : Reaches "u.py" ⟨200⟩ recorder2 :=
  @Reaches.step "u.py" ⟨200⟩ recorder1 recorder2 userFrame "exception"
    excArg reaches_recorder1 rfl

theorem reaches_recorder3 : Reaches "u.py" ⟨200⟩ recorder3 :=
  @Reaches.step "u.py" ⟨200⟩ recorder2 recorder3 userFrame "return"
    TraceArg.noneArg reaches_recorder2 rfl

theorem reaches_recorderNested : Reaches "u.py" ⟨200⟩ recorderNested :=
  @Reaches.step "u.py" ⟨200⟩ recorder1 recorderNested userFrame2 "call"
    TraceArg.noneArg reaches_recorder1 rfl

/-- C6: event ids are strictly increasing in emission order across the whole
run: in every reachable recorder state, each later-appended event in the log
has a strictly larger id than every earlier one. -/
theorem event_ids_strictly_increasing {fn : String} {r : SafeRepr}
    {s : TraceRecorder} (h : Reaches fn r s) :
    (s.events.map Event.id).Pairwise (· < ·) :=
  List.pairwise_map.mpr (reaches_inv h).ev_sorted

/-- Witness for C6 at the concrete three-event reachable state. -/
theorem event_ids_strictly_increasing_witness :
    (recorder3.events.map Event.id).Pairwise (· < ·) :=
  event_ids_strictly_increasing reaches_recorder3

/-- C10: in every reachable recorder state, the call stack is a strictly
increasing sequence of ids of nodes already in the node list, every edge
satisfies `parent_id < child_id`, and both edge endpoints refer to existing
nodes. -/
theorem call_stack_and_edges_wellformed {fn : String} {r : SafeRepr}
    {s : TraceRecorder} (h : Reaches fn r s) :
    s.call_stack.Pairwise (· < ·) ∧
    (∀ i ∈ s.call_stack, ∃ n ∈ s.nodes, n.id = i) ∧
    (∀ e ∈ s.edges, e.parent_id < e.child_id ∧
      (∃ n ∈ s.nodes, n.id = e.parent_id) ∧
      (∃ n ∈ s.nodes, n.id = e.child_id)) := by
  have inv := reaches_inv h
  refine ⟨inv.stack_sorted, ?_, ?_⟩
  · intro i hi
    exact List.mem_map.mp (inv.stack_mem i hi)
  · intro e he
    exact ⟨inv.edges_lt e he, List.mem_map.mp (inv.edges_mem e he).1,
      List.mem_map.mp (inv.edges_mem e he).2⟩

/-- Witness for C10 at the reachable state with a nested call (two stacked
nodes and one edge). -/
theorem call_stack_and_edges_wellformed_witness :
    recorderNested.call_stack.Pairwise (· < ·) ∧
    (∀ i ∈ recorderNested.call_stack,
      ∃ n ∈ recorderNested.nodes, n.id = i) ∧
    (∀ e ∈ recorderNested.edges, e.parent_id < e.child_id ∧
      (∃ n ∈ recorderNested.nodes, n.id = e.parent_id) ∧
      (∃ n ∈ recorderNested.nodes, n.id = e.child_id)) :=
  call_stack_and_edges_wellformed reaches_recorderNested

/-- C1 fails on the code: after the notification sequence CPython emits for a
raising call — `call`, `exception`, then the unwinding `return` (argument
`None`) — the node has BOTH its return-value field and its exception-info
field set, because the `return` branch writes `return_value` without checking
`exception` and the `exception` branch never pops the stack. -/
theorem node_terminal_exclusivity_cex :
    ∃ n ∈ (processAll recorder0 raisingRun).nodes,
      n.return_value.isSome ∧ n.exception.isSome := by decide

/-- C1 (amended): a node's terminal fields are only ever set by the matching
notification kind — in every reachable state, a node has `return_value` set
only if a `return` event for that node is in the log, and `exception` set
only if an `exception` event for it is in the log; in particular both are set
only when the node received both an exception and a return notification. -/
theorem node_terminal_fields_provenance {fn : String} {r : SafeRepr}
    {s : TraceRecorder} (h : Reaches fn r s) :
    ∀ n ∈ s.nodes,
      (n.return_value.isSome → ∃ e ∈ s.events,
        e.type = EventType.ret ∧ e.node_id = n.id) ∧
      (n.exception.isSome → ∃ e ∈ s.events,
        e.type = EventType.exception ∧ e.node_id = n.id) :=
  fun n hn => ⟨(reaches_inv h).ret_prov n hn, (reaches_inv h).exc_prov n hn⟩

/-- Witness for the amended C1 at the reachable state of the raising run,
where the single node has both fields set and the log indeed holds both the
`return` and the `exception` event for it. -/
theorem node_terminal_fields_provenance_witness :
    ∃ n ∈ recorder3.nodes, n.return_value.isSome ∧ n.exception.isSome ∧
      (∃ e ∈ recorder3.events,
        e.type = EventType.ret ∧ e.node_id = n.id) ∧
      (∃ e ∈ recorder3.events,
        e.type = EventType.exception ∧ e.node_id = n.id) := by
  have h := node_terminal_fields_provenance reaches_recorder3
    ⟨1, "f", "u.py", 1, [("n", "2")], some 3, some "None",
      some "ValueError: boom"⟩ (by decide)
  exact ⟨_, by decide, by decide, by decide, h.1 (by decide), h.2 (by decide)⟩
